import Mathlib

/-!
Shallow embedding of the retrieval core of `project.py` (a small
space-facts chatbot): the corpus preparer `preprocess`, the relevance
matcher `get_most_relevant_sentence`, and the response wrapper `chatbot`.
Strings are modelled over their character lists; Python regular
expression substitution, `str.split`, `str.strip`, `str.lower` and
`str.capitalize` are embedded character by character for the ASCII
fragment the program works in, and scores are exact rationals.
-/

/-- Whitespace class of Python, the characters matched by the regex
class `\s` (and stripped by `str.strip`) on ASCII text. -/
def isPySpace (c : Char) : Bool :=
  c == ' ' || c == '\t' || c == '\n' || c == '\r' || c == '\x0b' || c == '\x0c'

/-- ASCII case lowering of a single character, as `str.lower` acts on
the ASCII range. -/
def pyLowerChar (c : Char) : Char :=
  if 'A' ≤ c && c ≤ 'Z' then Char.ofNat (c.toNat + 32) else c

/-- ASCII case raising of a single character, as `str.upper` acts on
the ASCII range. -/
def pyUpperChar (c : Char) : Char :=
  if 'a' ≤ c && c ≤ 'z' then Char.ofNat (c.toNat - 32) else c

/-- Embedding of `text.lower()`. -/
def pyLower (s : String) : String := String.mk (s.data.map pyLowerChar)

/-- Characters kept by the substitution `re.sub(r'[^a-z0-9\s]', '', s)`
used in `preprocess` (line 86) and on the query (line 104): lowercase
letters, digits, and whitespace. -/
def keepChar (c : Char) : Bool :=
  ('a' ≤ c && c ≤ 'z') || ('0' ≤ c && c ≤ '9') || isPySpace c

/-- Embedding of `re.sub(r'[^a-z0-9\s]', '', s)`: delete every
character outside the class. -/
def pySub (s : String) : String := String.mk (s.data.filter keepChar)

/-- Embedding of `s.strip()`: drop leading and trailing whitespace. -/
def pyStrip (s : String) : String :=
  String.mk (((s.data.dropWhile isPySpace).reverse.dropWhile isPySpace).reverse)

/-- Split a character list at every separator character (the separators
are consumed); adjacent separators yield empty segments, as Python
`str.split(sep)` does. -/
def splitPred (p : Char → Bool) : List Char → List (List Char)
  | [] => [[]]
  | c :: cs =>
    match splitPred p cs with
    | [] => [[c]]
    | h :: t => if p c then [] :: h :: t else (c :: h) :: t

/-- Embedding of `text.split('.')` (line 75). -/
def pySplitDot (s : String) : List String :=
  (splitPred (fun c => c == '.') s.data).map String.mk

/-- Embedding of no-argument `s.split()` (lines 105 and 112): split on
whitespace runs, discarding empty pieces. -/
def pySplitWs (s : String) : List String :=
  ((splitPred isPySpace s.data).filter (fun l => !l.isEmpty)).map String.mk

/-- Embedding of `preprocess` (lines 61-89): lowercase, split on the
period, strip each segment, keep the non-empty ones, and delete the
characters outside `[a-z0-9\s]` from each kept segment. -/
def preprocess (text : String) : List String :=
  (((pySplitDot (pyLower text)).map pyStrip).filter (fun s => s != "")).map pySub

/-- Query normalization of `get_most_relevant_sentence` (lines
103-105): lowercase, delete characters outside `[a-z0-9\s]`, split on
whitespace. -/
def queryTokens (query : String) : List String :=
  pySplitWs (pySub (pyLower query))

/-- Match counting loop (lines 115-118): one increment per query word
present among the sentence words. -/
def countMatches (query_words sentence_words : List String) : Nat :=
  query_words.countP (fun word => sentence_words.contains word)

/-- Per-sentence score (lines 112-124): matches divided by the query
word count when the query has words, else 0. The quotient is the exact
rational value of the division `matches / len(query_words)`; the lemma
`sentenceScore_eq_div` below restates it with the field division of ℚ. -/
def sentenceScore (query_words : List String) (sentence : String) : ℚ :=
  if query_words.length > 0 then
    mkRat (countMatches query_words (pySplitWs sentence)) query_words.length
  else 0

/-- Best-match update of the loop body (lines 127-129): replace the
running best only on a strictly greater score. -/
def scoreStep (q : List String) (best : String × ℚ) (sentence : String) : String × ℚ :=
  if sentenceScore q sentence > best.2 then (sentence, sentenceScore q sentence) else best

/-- Embedding of `get_most_relevant_sentence` (lines 91-131): fold the
best-match update over the corpus starting from the empty sentence and
score 0. -/
def get_most_relevant_sentence (query : String) (sentences : List String) : String × ℚ :=
  sentences.foldl (scoreStep (queryTokens query)) ("", (0 : ℚ))

/-- Fixed message of `chatbot` for empty or whitespace-only input
(line 196). -/
def promptMessage : String := "Please provide a question!"

/-- Fixed fallback message of `chatbot` (line 205). -/
def fallbackMessage : String :=
  "I'm sorry, I don't have information about that. Try asking about planets, the Sun, Moon, astronauts, or space exploration!"

/-- Embedding of `str.capitalize()` (line 203): raise the case of the
first character and lower the case of all the remaining characters. -/
def pyCapitalize (s : String) : String :=
  match s.data with
  | [] => ""
  | c :: rest => String.mk (pyUpperChar c :: rest.map pyLowerChar)

/-- Embedding of `chatbot` (lines 182-205). The `input_type` argument
is carried as in the source and never read. -/
def chatbot (user_input : String) (sentences : List String) (input_type : String) : String :=
  if user_input = "" ∨ pyStrip user_input = "" then promptMessage
  else
    let r := get_most_relevant_sentence user_input sentences
    if r.2 > (0.2 : ℚ) then pyCapitalize r.1 ++ "." else fallbackMessage

/-- Match counting written the way the specification words it: one unit
added per query token occurrence whose token is present among the
sentence tokens. Stated for comparison with `countMatches`. -/
def specMatchCount (query_words sentence_words : List String) : Nat :=
  (query_words.map (fun word => if sentence_words.contains word then 1 else 0)).sum

/-- Capitalization written the way the specification words it: raise
the case of the first character and leave the rest of the string alone.
Stated for comparison with `pyCapitalize`. -/
def specUpperFirst (s : String) : String :=
  match s.data with
  | [] => ""
  | c :: rest => String.mk (pyUpperChar c :: rest)

/-- Character class the specification claims for prepared sentences:
lowercase letters, digits, and the plain space. Stated for comparison
with `keepChar`. -/
def specC4Allowed (c : Char) : Bool :=
  ('a' ≤ c && c ≤ 'z') || ('0' ≤ c && c ≤ '9') || c == ' '

/-- Restatement of `get_most_relevant_sentence` as the fold it is
defined by, to let the fold lemmas below apply. -/
theorem get_most_relevant_sentence_eq_foldl (query : String) (sentences : List String) :
    get_most_relevant_sentence query sentences
      = sentences.foldl (scoreStep (queryTokens query)) ("", (0 : ℚ)) := rfl

/-- The score is the field-division quotient of the match count by the
query word count (when the query has words). -/
theorem sentenceScore_eq_div (query_words : List String) (sentence : String)
    (h : query_words.length > 0) :
    sentenceScore query_words sentence
      = (countMatches query_words (pySplitWs sentence) : ℚ) / (query_words.length : ℚ) := by
  unfold sentenceScore
  rw [if_pos h, Rat.mkRat_eq_div]
  norm_num

/-- The threshold literal of the source, as a reduced rational. -/
theorem point_two_eq : (0.2 : ℚ) = mkRat 1 5 := by
  rw [Rat.mkRat_eq_div]
  norm_num

/-- A best-match update never lowers the running best score. -/
theorem scoreStep_snd_le (q : List String) (acc : String × ℚ) (s : String) :
    acc.2 ≤ (scoreStep q acc s).2 := by
  unfold scoreStep
  by_cases h : sentenceScore q s > acc.2
  · rw [if_pos h]
    exact le_of_lt h
  · rw [if_neg h]

/-- Folding the best-match update never lowers the running best score. -/
theorem foldl_scoreStep_snd_mono (q : List String) :
    ∀ (l : List String) (acc : String × ℚ), acc.2 ≤ (l.foldl (scoreStep q) acc).2
  | [], _ => le_refl _
  | s :: t, acc =>
    le_trans (scoreStep_snd_le q acc s) (foldl_scoreStep_snd_mono q t (scoreStep q acc s))

/-- The folded best score is an upper bound of the score of every
sentence in the list. -/
theorem foldl_scoreStep_ub (q : List String) :
    ∀ (l : List String) (acc : String × ℚ), ∀ s ∈ l,
      sentenceScore q s ≤ (l.foldl (scoreStep q) acc).2 := by
  intro l
  induction l with
  | nil => intro acc s hs; cases hs
  | cons a t ih =>
    intro acc s hs
    rw [List.foldl_cons]
    rcases List.mem_cons.mp hs with rfl | hs
    · refine le_trans ?_ (foldl_scoreStep_snd_mono q t (scoreStep q acc s))
      unfold scoreStep
      by_cases h : sentenceScore q s > acc.2
      · rw [if_pos h]
      · rw [if_neg h]
        exact not_lt.mp h
    · exact ih (scoreStep q acc a) s hs

/-- The fold either keeps its start pair untouched, or ends at a pair
whose sentence is in the list, whose score is that sentence's score,
and whose score strictly exceeds the start score. -/
theorem foldl_scoreStep_attain (q : List String) :
    ∀ (l : List String) (acc : String × ℚ),
      l.foldl (scoreStep q) acc = acc ∨
      ((l.foldl (scoreStep q) acc).1 ∈ l ∧
       (l.foldl (scoreStep q) acc).2 = sentenceScore q (l.foldl (scoreStep q) acc).1 ∧
       acc.2 < (l.foldl (scoreStep q) acc).2) := by
  intro l
  induction l with
  | nil => intro acc; exact Or.inl rfl
  | cons a t ih =>
    intro acc
    rw [List.foldl_cons]
    by_cases h : sentenceScore q a > acc.2
    · have hstep : scoreStep q acc a = (a, sentenceScore q a) := by
        unfold scoreStep; rw [if_pos h]
      rw [hstep]
      rcases ih (a, sentenceScore q a) with heq | ⟨hmem, hsc, hlt⟩
      · right
        rw [heq]
        exact ⟨List.mem_cons_self a t, rfl, h⟩
      · exact Or.inr ⟨List.mem_cons_of_mem a hmem, hsc, lt_trans h hlt⟩
    · have hstep : scoreStep q acc a = acc := by
        unfold scoreStep; rw [if_neg h]
      rw [hstep]
      rcases ih acc with heq | ⟨hmem, hsc, hlt⟩
      · exact Or.inl heq
      · exact Or.inr ⟨List.mem_cons_of_mem a hmem, hsc, hlt⟩

/-- When the fold strictly improves on its start score, the pair it
ends at is the earliest list entry attaining the final score: the
strict comparison of the update never lets a later tie displace it. -/
theorem foldl_scoreStep_first (q : List String) :
    ∀ (l : List String) (acc : String × ℚ),
      acc.2 < (l.foldl (scoreStep q) acc).2 →
      l.find? (fun s => decide (sentenceScore q s = (l.foldl (scoreStep q) acc).2))
        = some (l.foldl (scoreStep q) acc).1 := by
  intro l
  induction l with
  | nil => intro acc h; exact absurd h (lt_irrefl _)
  | cons a t ih =>
    intro acc h
    rw [List.foldl_cons] at h ⊢
    by_cases hgt : sentenceScore q a > acc.2
    · have hstep : scoreStep q acc a = (a, sentenceScore q a) := by
        unfold scoreStep; rw [if_pos hgt]
      rw [hstep] at h ⊢
      by_cases heq : sentenceScore q a = (t.foldl (scoreStep q) (a, sentenceScore q a)).2
      · rcases foldl_scoreStep_attain q t (a, sentenceScore q a) with hfeq | ⟨_, _, hlt⟩
        · rw [hfeq]
          exact List.find?_cons_of_pos t (decide_eq_true rfl)
        · exfalso
          have hlt2 : sentenceScore q a < (t.foldl (scoreStep q) (a, sentenceScore q a)).2 := hlt
          exact absurd hlt2 (not_lt.mpr (le_of_eq heq.symm))
      · have hle : sentenceScore q a ≤ (t.foldl (scoreStep q) (a, sentenceScore q a)).2 :=
          foldl_scoreStep_snd_mono q t (a, sentenceScore q a)
        rw [List.find?_cons_of_neg t (by simpa using heq)]
        exact ih (a, sentenceScore q a) (lt_of_le_of_ne hle heq)
    · have hstep : scoreStep q acc a = acc := by
        unfold scoreStep; rw [if_neg hgt]
      rw [hstep] at h ⊢
      have hlt : sentenceScore q a < (t.foldl (scoreStep q) acc).2 :=
        lt_of_le_of_lt (not_lt.mp hgt) h
      rw [List.find?_cons_of_neg t (by simp [ne_of_lt hlt])]
      exact ih acc h

/-- Every per-sentence score is nonnegative. -/
theorem sentenceScore_nonneg (q : List String) (s : String) : 0 ≤ sentenceScore q s := by
  unfold sentenceScore
  by_cases h : q.length > 0
  · rw [if_pos h, Rat.mkRat_eq_div]
    positivity
  · rw [if_neg h]

/-- Every per-sentence score is at most one: no query token is counted
more often than it occurs. -/
theorem sentenceScore_le_one (q : List String) (s : String) : sentenceScore q s ≤ 1 := by
  unfold sentenceScore
  by_cases h : q.length > 0
  · rw [if_pos h, Rat.mkRat_eq_div]
    rw [div_le_one (by exact_mod_cast h)]
    have hle : countMatches q (pySplitWs s) ≤ q.length := by
      unfold countMatches
      exact List.countP_le_length _
    exact_mod_cast hle
  · rw [if_neg h]
    exact zero_le_one

/-- A query with no tokens scores zero against every sentence. -/
theorem sentenceScore_nil (s : String) : sentenceScore [] s = 0 := rfl

/-- A stripped string is empty when the input is all whitespace. -/
theorem pyStrip_eq_empty_of_all_space (s : String) (h : s.data.all isPySpace = true) :
    pyStrip s = "" := by
  unfold pyStrip
  have h1 : s.data.dropWhile isPySpace = [] := by
    rw [List.dropWhile_eq_nil_iff]
    exact List.all_eq_true.mp h
  rw [h1]
  rfl

/-- Appending the final period never produces the empty string. -/
theorem append_dot_ne_empty (s : String) : s ++ "." ≠ "" := by
  intro h
  have hlen := congrArg String.length h
  rw [String.length_append] at hlen
  have h1 : ("." : String).length = 1 := rfl
  have h2 : ("" : String).length = 0 := rfl
  omega

/-- The loop counter of the source equals the specification's sum of
per-token indicators. -/
theorem countMatches_eq_specMatchCount :
    ∀ query_words sentence_words : List String,
      countMatches query_words sentence_words = specMatchCount query_words sentence_words := by
  intro q sws
  unfold countMatches specMatchCount
  induction q with
  | nil => rfl
  | cons a t ih =>
    rw [List.countP_cons, List.map_cons, List.sum_cons, ih]
    by_cases h : sws.contains a <;> simp [h] <;> omega

/-- Claim C1: the matcher normalizes the query (lowercase, strip
characters outside lowercase letters, digits and whitespace, split on
whitespace — the content of `queryTokens`), and returns as score an
upper bound of every per-sentence score that is attained by some corpus
sentence whenever the corpus is non-empty, so the maximum of matches
divided by the query token count; the score is 0 when the query has no
tokens; and the loop counter counts each query token occurrence with
multiplicity, testing membership among the sentence tokens, as the
equality with `specMatchCount` states. -/
theorem score_is_max_over_corpus (query : String) (sentences : List String) :
    (∀ s ∈ sentences,
      sentenceScore (queryTokens query) s ≤ (get_most_relevant_sentence query sentences).2) ∧
    (sentences ≠ [] → ∃ s ∈ sentences,
      sentenceScore (queryTokens query) s = (get_most_relevant_sentence query sentences).2) ∧
    (queryTokens query = [] → (get_most_relevant_sentence query sentences).2 = 0) ∧
    (∀ query_words sentence_words : List String,
      countMatches query_words sentence_words = specMatchCount query_words sentence_words) := by
  rw [get_most_relevant_sentence_eq_foldl]
  refine ⟨?_, ?_, ?_, countMatches_eq_specMatchCount⟩
  · intro s hs
    exact foldl_scoreStep_ub (queryTokens query) sentences ("", 0) s hs
  · intro hne
    rcases foldl_scoreStep_attain (queryTokens query) sentences ("", 0) with heq | ⟨hmem, hsc, _⟩
    · cases sentences with
      | nil => exact absurd rfl hne
      | cons a t =>
        refine ⟨a, List.mem_cons_self a t, ?_⟩
        have hub := foldl_scoreStep_ub (queryTokens query) (a :: t) ("", 0) a
          (List.mem_cons_self a t)
        rw [heq] at hub
        rw [heq]
        exact le_antisymm hub (sentenceScore_nonneg _ _)
    · exact ⟨_, hmem, hsc.symm⟩
  · intro hq
    rw [hq]
    rcases foldl_scoreStep_attain [] sentences ("", 0) with heq | ⟨_, hsc, hlt⟩
    · rw [heq]
    · exfalso
      rw [sentenceScore_nil] at hsc
      have hlt2 : (0 : ℚ) < (sentences.foldl (scoreStep []) ("", 0)).2 := hlt
      rw [hsc] at hlt2
      exact lt_irrefl 0 hlt2

/-- Witness for C1 at the Mars query and the one-sentence corpus. -/
theorem score_is_max_over_corpus_witness :
    (["mars is called the red planet"] : List String) ≠ [] ∧
    ∃ s ∈ (["mars is called the red planet"] : List String),
      sentenceScore (queryTokens "What is Mars") s
        = (get_most_relevant_sentence "What is Mars" ["mars is called the red planet"]).2 :=
  ⟨by decide,
    (score_is_max_over_corpus "What is Mars" ["mars is called the red planet"]).2.1 (by decide)⟩

/-- Claim C2, counterexample: on the corpus sentence "mars IS red" the
query "what is mars" scores 1/3 > 0.2, yet the response is not the
matched sentence with only its first character raised — Python
`capitalize` also lowers the rest, giving "Mars is red." instead of
"Mars IS red.". -/
theorem capitalize_rest_not_preserved :
    pyStrip "what is mars" ≠ "" ∧
    (get_most_relevant_sentence "what is mars" ["mars IS red"]).2 > (0.2 : ℚ) ∧
    chatbot "what is mars" ["mars IS red"] "text"
      ≠ specUpperFirst (get_most_relevant_sentence "what is mars" ["mars IS red"]).1 ++ "." := by
  refine ⟨by decide, ?_, ?_⟩
  · rw [point_two_eq]
    decide
  · simp only [chatbot, point_two_eq]
    decide

/-- Claim C2 as amended: for every non-whitespace query, a score above
the 0.2 threshold yields the matched sentence transformed by Python
`capitalize` — first character raised, the rest of the string lowered
(the identity on the rest only when it is already lowercase, as it is
for every `preprocess` output) — followed by a period, and otherwise
the fixed fallback; the Mars example behaves as the spec says, with
score 2/3. -/
theorem threshold_response_shape (query : String) (sentences : List String) (t : String)
    (h : pyStrip query ≠ "") :
    ((get_most_relevant_sentence query sentences).2 > (0.2 : ℚ) →
      chatbot query sentences t
        = pyCapitalize (get_most_relevant_sentence query sentences).1 ++ ".") ∧
    (¬ (get_most_relevant_sentence query sentences).2 > (0.2 : ℚ) →
      chatbot query sentences t = fallbackMessage) ∧
    chatbot "What is Mars" ["mars is called the red planet"] t
      = "Mars is called the red planet." ∧
    (get_most_relevant_sentence "What is Mars" ["mars is called the red planet"]).2 = 2 / 3 := by
  have hguard : ¬ (query = "" ∨ pyStrip query = "") := by
    rintro (rfl | hq)
    · exact h rfl
    · exact h hq
  refine ⟨?_, ?_, ?_, ?_⟩
  · intro hsc
    simp only [chatbot]
    rw [if_neg hguard, if_pos hsc]
  · intro hsc
    simp only [chatbot]
    rw [if_neg hguard, if_neg hsc]
  · simp only [chatbot, point_two_eq]
    decide
  · rw [(by rw [Rat.mkRat_eq_div]; norm_num : (mkRat 2 3 : ℚ) = 2 / 3).symm]
    decide

/-- Witness for C2 at the Mars query. -/
theorem threshold_response_shape_witness :
    chatbot "What is Mars" ["mars is called the red planet"] "text"
      = "Mars is called the red planet." :=
  (threshold_response_shape "What is Mars" ["mars is called the red planet"] "text"
    (by decide)).2.2.1

/-- Claim C3, counterexample: on the corpus ["a", "b"] and the query
"x" both sentences attain the returned maximal score, yet the matcher
returns the empty sentinel, not the earliest corpus sentence. -/
theorem tie_at_zero_returns_sentinel :
    sentenceScore (queryTokens "x") "a" = (get_most_relevant_sentence "x" ["a", "b"]).2 ∧
    sentenceScore (queryTokens "x") "b" = (get_most_relevant_sentence "x" ["a", "b"]).2 ∧
    (get_most_relevant_sentence "x" ["a", "b"]).1 = "" ∧
    (get_most_relevant_sentence "x" ["a", "b"]).1 ≠ "a" := by decide

/-- Claim C3 as amended: whenever the returned score is strictly
positive, the matcher returns the earliest corpus sentence attaining
that (maximal) score — a later sentence replaces the current best only
on a strictly greater score; when every score is 0 the empty sentinel
is kept instead. -/
theorem strict_improvement_keeps_earliest (query : String) (sentences : List String)
    (h : 0 < (get_most_relevant_sentence query sentences).2) :
    sentences.find?
        (fun s => decide (sentenceScore (queryTokens query) s
          = (get_most_relevant_sentence query sentences).2))
      = some (get_most_relevant_sentence query sentences).1 := by
  rw [get_most_relevant_sentence_eq_foldl] at h ⊢
  exact foldl_scoreStep_first (queryTokens query) sentences ("", 0) h

/-- Witness for C3 on a two-way tie with positive score. -/
theorem strict_improvement_keeps_earliest_witness :
    0 < (get_most_relevant_sentence "mars" ["mars a", "mars b"]).2 ∧
    (["mars a", "mars b"] : List String).find?
        (fun s => decide (sentenceScore (queryTokens "mars") s
          = (get_most_relevant_sentence "mars" ["mars a", "mars b"]).2))
      = some (get_most_relevant_sentence "mars" ["mars a", "mars b"]).1 :=
  ⟨by decide, strict_improvement_keeps_earliest "mars" ["mars a", "mars b"] (by decide)⟩

/-- Claim C4, counterexample: `preprocess` keeps a segment that is
non-empty before the character deletion, so a segment of punctuation
only comes out as the empty string; and tabs and repeated spaces
survive, so the output is not confined to lowercase alphanumerics and
single spaces. -/
theorem preprocess_invariant_fails :
    preprocess "!.a\t b  c" = ["", "a\t b  c"] ∧
    ¬ ∀ s ∈ preprocess "!.a\t b  c", s ≠ "" ∧ ∀ c ∈ s.data, specC4Allowed c := by
  decide

/-- Claim C4 as amended: every character of every string returned by
`preprocess` is a lowercase letter, a digit, or whitespace (the class
kept by the substitution); strings may be empty, and whitespace runs
are preserved as in the input. -/
theorem preprocess_char_class (text : String) :
    ∀ s ∈ preprocess text, ∀ c ∈ s.data, keepChar c = true := by
  intro s hs c hc
  unfold preprocess at hs
  rcases List.mem_map.mp hs with ⟨x, _, rfl⟩
  unfold pySub at hc
  exact (List.mem_filter.mp hc).2

/-- Witness for C4 on a concrete two-sentence text. -/
theorem preprocess_char_class_witness :
    ("a" ∈ preprocess "a.b") ∧ keepChar 'a' = true :=
  ⟨by decide, preprocess_char_class "a.b" "a" (by decide) 'a' (by decide)⟩

/-- Claim C5: the matcher returns the pair ("", 0) whenever the query
has no tokens (for every corpus), and whenever the corpus is empty (for
every query); it is a total function of its two string inputs by
construction, always returning a sentence-score pair. -/
theorem matcher_edge_cases (query : String) (sentences : List String) :
    (queryTokens query = [] → get_most_relevant_sentence query sentences = ("", 0)) ∧
    get_most_relevant_sentence query [] = ("", 0) := by
  constructor
  · intro hq
    rw [get_most_relevant_sentence_eq_foldl, hq]
    rcases foldl_scoreStep_attain [] sentences ("", 0) with heq | ⟨_, hsc, hlt⟩
    · exact heq
    · exfalso
      rw [sentenceScore_nil] at hsc
      have hlt2 : (0 : ℚ) < (sentences.foldl (scoreStep []) ("", 0)).2 := hlt
      rw [hsc] at hlt2
      exact lt_irrefl 0 hlt2
  · rfl

/-- Witness for C5 at a punctuation-only query. -/
theorem matcher_edge_cases_witness :
    queryTokens "?!" = [] ∧ get_most_relevant_sentence "?!" ["a"] = ("", 0) :=
  ⟨by decide, (matcher_edge_cases "?!" ["a"]).1 (by decide)⟩

/-- Claim C6: consecutive and trailing period delimiters contribute no
entries, so "A.B..C." prepares to exactly the three cleaned segments. -/
theorem preprocess_consecutive_delimiters : preprocess "A.B..C." = ["a", "b", "c"] := by
  decide

/-- Claim C7: a query whose characters are all whitespace (the empty
query included) gets the fixed prompt-for-input message; the result
does not depend on the corpus argument at all, reflecting that the
check precedes the matcher invocation. -/
theorem whitespace_query_prompt (user_input : String) (sentences : List String) (t : String)
    (h : user_input.data.all isPySpace = true) :
    chatbot user_input sentences t = promptMessage := by
  simp only [chatbot]
  rw [if_pos (Or.inr (pyStrip_eq_empty_of_all_space user_input h))]

/-- Witness for C7 at a spaces-only query. -/
theorem whitespace_query_prompt_witness :
    chatbot "   " ["mars is called the red planet"] "text" = promptMessage :=
  whitespace_query_prompt "   " ["mars is called the red planet"] "text" (by decide)

/-- Claim C8: the response is a pure function of the query and corpus —
the input-type tag never influences it — and preparing the same raw
text twice yields the same ordered sequence. -/
theorem response_ignores_input_type (query : String) (sentences : List String)
    (t1 t2 text : String) :
    chatbot query sentences t1 = chatbot query sentences t2 ∧
    preprocess text = preprocess text :=
  ⟨rfl, rfl⟩

/-- Claim C9, counterexample: `preprocess "!"` yields a corpus holding
the empty string, on which the matcher returns the empty sentinel with
score 0 — a best sentence that is an element of the corpus while the
score is not strictly positive, refuting the stated equivalence. -/
theorem score_positive_iff_fails :
    preprocess "!" = [""] ∧
    (get_most_relevant_sentence "x" (preprocess "!")).1 ∈ preprocess "!" ∧
    ¬ 0 < (get_most_relevant_sentence "x" (preprocess "!")).2 := by decide

/-- Claim C9 as amended: the returned score is a rational in [0, 1]; a
strictly positive score implies the returned best sentence is an
element of the corpus; a zero score implies the returned best sentence
is the empty string (which need not be outside the corpus). -/
theorem score_bounds_and_membership (query : String) (sentences : List String) :
    0 ≤ (get_most_relevant_sentence query sentences).2 ∧
    (get_most_relevant_sentence query sentences).2 ≤ 1 ∧
    (0 < (get_most_relevant_sentence query sentences).2 →
      (get_most_relevant_sentence query sentences).1 ∈ sentences) ∧
    ((get_most_relevant_sentence query sentences).2 = 0 →
      (get_most_relevant_sentence query sentences).1 = "") := by
  rw [get_most_relevant_sentence_eq_foldl]
  refine ⟨foldl_scoreStep_snd_mono (queryTokens query) sentences ("", 0), ?_, ?_, ?_⟩
  · rcases foldl_scoreStep_attain (queryTokens query) sentences ("", 0) with heq | ⟨_, hsc, _⟩
    · rw [heq]
      exact zero_le_one
    · rw [hsc]
      exact sentenceScore_le_one _ _
  · intro hpos
    rcases foldl_scoreStep_attain (queryTokens query) sentences ("", 0) with heq | ⟨hmem, _, _⟩
    · exfalso
      rw [heq] at hpos
      exact lt_irrefl 0 hpos
    · exact hmem
  · intro hz
    rcases foldl_scoreStep_attain (queryTokens query) sentences ("", 0) with heq | ⟨_, _, hlt⟩
    · rw [heq]
    · exfalso
      have hlt2 : (0 : ℚ) < (sentences.foldl (scoreStep (queryTokens query)) ("", 0)).2 := hlt
      rw [hz] at hlt2
      exact lt_irrefl 0 hlt2

/-- Witness for C9 at a matching one-sentence corpus. -/
theorem score_bounds_and_membership_witness :
    0 < (get_most_relevant_sentence "mars" ["mars is red"]).2 ∧
    (get_most_relevant_sentence "mars" ["mars is red"]).1 ∈ (["mars is red"] : List String) :=
  ⟨by decide, (score_bounds_and_membership "mars" ["mars is red"]).2.2.1 (by decide)⟩

/-- Claim C10, counterexample: with an uppercase corpus sentence the
response is the Python-capitalized sentence "Jupiter is big.", which is
neither fixed message nor any corpus sentence with only its first
character raised. -/
theorem response_shape_fails_on_uppercase :
    chatbot "what is jupiter" ["jupiter IS big"] "text" = "Jupiter is big." ∧
    chatbot "what is jupiter" ["jupiter IS big"] "text" ≠ promptMessage ∧
    chatbot "what is jupiter" ["jupiter IS big"] "text" ≠ fallbackMessage ∧
    ¬ ∃ sent ∈ (["jupiter IS big"] : List String),
        chatbot "what is jupiter" ["jupiter IS big"] "text" = specUpperFirst sent ++ "." := by
  simp only [chatbot, point_two_eq]
  decide

/-- Claim C10 as amended: the response is never empty and is exactly
one of three shapes — the fixed prompt message, the fixed fallback
message, or a corpus sentence transformed by Python `capitalize` (first
character raised, rest lowered) followed by a period. -/
theorem response_shapes (query : String) (sentences : List String) (t : String) :
    chatbot query sentences t ≠ "" ∧
    (chatbot query sentences t = promptMessage ∨
     chatbot query sentences t = fallbackMessage ∨
     ∃ sent ∈ sentences, chatbot query sentences t = pyCapitalize sent ++ ".") := by
  by_cases hg : query = "" ∨ pyStrip query = ""
  · have hchat : chatbot query sentences t = promptMessage := by
      simp only [chatbot]
      rw [if_pos hg]
    rw [hchat]
    exact ⟨by decide, Or.inl rfl⟩
  · by_cases hsc : (get_most_relevant_sentence query sentences).2 > (0.2 : ℚ)
    · have hchat : chatbot query sentences t
          = pyCapitalize (get_most_relevant_sentence query sentences).1 ++ "." := by
        simp only [chatbot]
        rw [if_neg hg, if_pos hsc]
      have hpos : (0 : ℚ) < (get_most_relevant_sentence query sentences).2 :=
        lt_trans (by rw [point_two_eq]; decide) hsc
      have hmem : (get_most_relevant_sentence query sentences).1 ∈ sentences := by
        rw [get_most_relevant_sentence_eq_foldl] at hpos ⊢
        rcases foldl_scoreStep_attain (queryTokens query) sentences ("", 0) with heq | ⟨hmem, _, _⟩
        · exfalso
          rw [heq] at hpos
          exact lt_irrefl 0 hpos
        · exact hmem
      rw [hchat]
      exact ⟨append_dot_ne_empty _, Or.inr (Or.inr ⟨_, hmem, rfl⟩)⟩
    · have hchat : chatbot query sentences t = fallbackMessage := by
        simp only [chatbot]
        rw [if_neg hg, if_neg hsc]
      rw [hchat]
      exact ⟨by decide, Or.inr (Or.inl rfl)⟩

